import Mathlib

/-!
Shallow embedding of `src/extraction/github_filtered_exporter.py`.

The script's single function `fetch_repositories` runs an outer loop over a
descending star-count window and an inner paging loop that issues HTTP
requests, writes CSV rows, and counts saved records.  The embedding models
one HTTP exchange per request through an `oracle : Nat → Resp` (the n-th
request receives `oracle n`), and threads the script's mutable variables
(`total_saved`, `current_max_stars`, `last_star_count`, the rows written so
far, and a log of issued requests) through an explicit `State`.

Modelling conventions:
* Python ints are `Int` (star counts / HTTP statuses that are naturally
  non-negative appear as `Nat` where the source only ever uses them so);
* `time.sleep` and `print` are no-ops and are dropped;
* a JSON object field is `Option`-valued: `none` models `dict.get` finding
  no key (so the `.get` default applies); for `description` and the license
  `name` a second `Option` layer distinguishes a present-but-`null` value,
  because Python's `dict.get(k, d)` returns `None` (not `d`) for a key that
  is present with value `null`;
* a request-level exception (from `requests.get`, `response.json()`, or any
  other statement inside the `try` block before a row is written) is the
  oracle outcome `Resp.exn`; the `except` clause turns it into a `break`.
-/

namespace GithubExporter

/-- TARGET_TOTAL from the source: the configured target record count. -/
def TARGET_TOTAL : Nat := 10000

/-- RESULTS_PER_PAGE from the source. -/
def RESULTS_PER_PAGE : Nat := 100

/-- PAGES_PER_QUERY from the source. -/
def PAGES_PER_QUERY : Nat := 10

/-- Configuration of the collector: the constants of the source made
explicit so that theorems quantify over them (spec section 4.1 lists them
as the collector's inputs). -/
structure Config where
  targetTotal : Nat
  resultsPerPage : Nat
  pagesPerQuery : Nat
  initialMaxStars : Int
deriving DecidableEq

/-- Configuration holding exactly the source's constants
(`TARGET_TOTAL = 10000`, `RESULTS_PER_PAGE = 100`, `PAGES_PER_QUERY = 10`,
and the initial window `current_max_stars = 500000`). -/
def defaultConfig : Config :=
  { targetTotal := TARGET_TOTAL
    resultsPerPage := RESULTS_PER_PAGE
    pagesPerQuery := PAGES_PER_QUERY
    initialMaxStars := 500000 }

/-- License object of an API item: the dict stored under the `license` key.
Its `name` field is `none` when the key is absent, `some none` when the key
is present with JSON `null`, and `some (some s)` for a string value. -/
structure License where
  name : Option (Option String)
deriving DecidableEq

/-- One element of the `items` array of a search response, restricted to
the keys the source reads.  `none` models an absent key (for `license`,
absent or `null`: both make the Python expression `repo.get('license')`
falsy, so `or {}` replaces them with the empty dict). -/
structure Item where
  name : Option String
  full_name : Option String
  html_url : Option String
  description : Option (Option String)
  stargazers_count : Option Int
  forks_count : Option Int
  open_issues_count : Option Int
  created_at : Option String
  updated_at : Option String
  license : Option License
deriving DecidableEq

/-- Value written into one CSV cell: Python hands `csv.writer` strings,
ints, or `None`. -/
inductive Cell where
  | str (s : String)
  | int (i : Int)
  | none
deriving DecidableEq

/-- Outcome of one `requests.get` call:
`http status items` is a completed exchange whose parsed body yields
`data.get('items', []) = items` (ignored unless the status is 200);
`exn` is a raised request-level exception (connection error, JSON parse
failure, ...), caught by the source's `except Exception` clause. -/
inductive Resp where
  | http (status : Nat) (items : List Item)
  | exn
deriving DecidableEq

/-- Running state of `fetch_repositories`: the mutable variables of the
source plus the observable output.  `rows` is the sequence of data rows
written to the CSV file (the header row is accounted separately by
`fileOf`); `log` records, per issued request, the page number and the
window ceiling it was issued with; `starsLog` is the trace of the star
values of the written rows, in write order. -/
structure State where
  saved : Nat
  ceiling : Int
  lastStars : Int
  rows : List (List Cell)
  starsLog : List Int
  reqs : Nat
  log : List (Nat × Int)
deriving DecidableEq

/-- csv_headers from the source. -/
def csv_headers : List String :=
  ["name", "full_name", "url", "description", "stars",
   "forks", "open_issues", "created_at", "updated_at", "license_name"]

/-- Python's `s.replace("\n", " ")`: with a one-character needle and a
one-character replacement this is the character-wise map that turns every
newline into a space. -/
def replaceNewlines (s : String) : String :=
  ⟨s.data.map fun c => if c = '\n' then ' ' else c⟩

/-- Python's `str(repo.get('description', ''))`: the default `''` applies
only when the key is absent; a key present with `null` gives `str(None)`,
which is the literal string `"None"`. -/
def descriptionStr (d : Option (Option String)) : String :=
  match d with
  | Option.none => ""
  | some Option.none => "None"
  | some (some s) => s

/-- Free-text description cell content before writing: the source's
`str(repo.get('description', '')).replace("\n", " ")`. -/
def descField (repo : Item) : String :=
  replaceNewlines (descriptionStr repo.description)

/-- A `repo.get(k)` result (no default) as a CSV cell. -/
def cellOfStrOpt (o : Option String) : Cell :=
  match o with
  | Option.none => Cell.none
  | some s => Cell.str s

/-- An integer-valued `repo.get(k)` result (no default) as a CSV cell. -/
def cellOfIntOpt (o : Option Int) : Cell :=
  match o with
  | Option.none => Cell.none
  | some i => Cell.int i

/-- The source's `(repo.get('license') or {}).get('name', 'N/A')` as a
cell: absent or `null` license collapses to the empty dict, whose `get`
returns the `'N/A'` default; a license dict without a `name` key also
yields `'N/A'`; a `name` key present with `null` yields Python `None`. -/
def licenseCell (repo : Item) : Cell :=
  match repo.license with
  | Option.none => Cell.str "N/A"
  | some l =>
    match l.name with
    | Option.none => Cell.str "N/A"
    | some Option.none => Cell.none
    | some (some s) => Cell.str s

/-- The row handed to `writer.writerow` for one item, in source order. -/
def rowOf (repo : Item) : List Cell :=
  [ cellOfStrOpt repo.name,
    cellOfStrOpt repo.full_name,
    cellOfStrOpt repo.html_url,
    Cell.str (descField repo),
    Cell.int (repo.stargazers_count.getD 0),
    cellOfIntOpt repo.forks_count,
    cellOfIntOpt repo.open_issues_count,
    cellOfStrOpt repo.created_at,
    cellOfStrOpt repo.updated_at,
    licenseCell repo ]

/-- Inner `for repo in items` loop of the source: before each item the
quota is checked (`if total_saved >= TARGET_TOTAL: break`); otherwise
`stars = repo.get('stargazers_count', 0)` is computed once, the row is
written, `total_saved` is incremented, and `last_star_count = stars`. -/
def writeItems (cfg : Config) : List Item → State → State
  | [], s => s
  | repo :: rest, s =>
    if cfg.targetTotal ≤ s.saved then s
    else
      writeItems cfg rest
        { s with
          rows := s.rows ++ [rowOf repo],
          saved := s.saved + 1,
          lastStars := repo.stargazers_count.getD 0,
          starsLog := s.starsLog ++ [repo.stargazers_count.getD 0] }

/-- Issue one request: `requests.get(API_URL, headers, params)` with the
page number and the current window ceiling among the params; the state
records the attempt. -/
def logReq (page : Nat) (s : State) : State :=
  { s with reqs := s.reqs + 1, log := s.log ++ [(page, s.ceiling)] }

/-- Inner `for page in range(1, PAGES_PER_QUERY + 1)` loop of the source.
Per page: issue the request; on status 403 sleep and `continue` (which in
a Python `for` loop moves on to the next page number); on any other
non-200 status `break`; on 200 with no items `break`; otherwise write the
items, then `break` if the quota is met, else sleep briefly and go to the
next page.  A request-level exception (`Resp.exn`) hits the `except`
clause, which does `break`. -/
def innerPages (cfg : Config) (oracle : Nat → Resp) : List Nat → State → State
  | [], s => s
  | page :: rest, s =>
    match oracle s.reqs with
    | Resp.exn => logReq page s
    | Resp.http status items =>
      if status = 403 then innerPages cfg oracle rest (logReq page s)
      else if status ≠ 200 then logReq page s
      else if items.isEmpty then logReq page s
      else
        if cfg.targetTotal ≤ (writeItems cfg items (logReq page s)).saved then
          writeItems cfg items (logReq page s)
        else innerPages cfg oracle rest (writeItems cfg items (logReq page s))

/-- One full pass of the inner paging loop, started the way the outer loop
starts it: `last_star_count = current_max_stars`, then pages 1 through
`PAGES_PER_QUERY`. -/
def passState (cfg : Config) (oracle : Nat → Resp) (s : State) : State :=
  innerPages cfg oracle (List.range' 1 cfg.pagesPerQuery)
    { s with lastStars := s.ceiling }

/-- One iteration of the outer `while` loop: run the pass, then move the
window down — `if last_star_count >= current_max_stars` decrement the
ceiling by 1, else set it to `last_star_count`. -/
def outerIter (cfg : Config) (oracle : Nat → Resp) (s : State) : State :=
  if (passState cfg oracle s).ceiling ≤ (passState cfg oracle s).lastStars then
    { passState cfg oracle s with ceiling := (passState cfg oracle s).ceiling - 1 }
  else
    { passState cfg oracle s with ceiling := (passState cfg oracle s).lastStars }

/-- Outer `while total_saved < TARGET_TOTAL` loop.  `fuel` bounds the
number of outer iterations this unrolling may take; the result is `none`
exactly when the guard was still true after `fuel` iterations (the
termination theorem shows a fuel of the initial ceiling always
suffices).  After each iteration the source breaks out of the `while`
when `current_max_stars <= 0`. -/
def run (cfg : Config) (oracle : Nat → Resp) (fuel : Nat) (s : State) : Option State :=
  if cfg.targetTotal ≤ s.saved then some s
  else
    match fuel with
    | 0 => Option.none
    | f + 1 =>
      if (outerIter cfg oracle s).ceiling ≤ 0 then some (outerIter cfg oracle s)
      else run cfg oracle f (outerIter cfg oracle s)

/-- Initial state of `fetch_repositories`: `total_saved = 0`,
`current_max_stars` at its initial constant, nothing written, nothing
requested.  `last_star_count` is not yet bound in the source at this
point; it is initialized at the top of every outer iteration, so the `0`
placed here is never read. -/
def initState (cfg : Config) : State :=
  { saved := 0, ceiling := cfg.initialMaxStars, lastStars := 0,
    rows := [], starsLog := [], reqs := 0, log := [] }

/-- Whole collector run: the source's `fetch_repositories`, from the fresh
state, against a given response oracle. -/
def fetch_repositories (cfg : Config) (oracle : Nat → Resp) (fuel : Nat) :
    Option State :=
  run cfg oracle fuel (initState cfg)

/-- Contents of the output CSV file at a state: the header row written
once before the loop, then the data rows. -/
def fileOf (s : State) : List (List Cell) :=
  (csv_headers.map Cell.str) :: s.rows

/-- Star values written during the pass that `outerIter` performs from
state `s`: the extension of the `starsLog` trace made by that pass. -/
def passWritten (cfg : Config) (oracle : Nat → Resp) (s : State) : List Int :=
  (passState cfg oracle s).starsLog.drop s.starsLog.length

/-- lastOr l d is the last element of l, or d when l is empty; this is how
`last_star_count` evolves over a trace of written star values. -/
def lastOr : List Int → Int → Int
  | [], d => d
  | a :: rest, _ => lastOr rest a

lemma lastOr_append (w1 w2 : List Int) (d : Int) :
    lastOr (w1 ++ w2) d = lastOr w2 (lastOr w1 d) := by
  induction w1 generalizing d with
  | nil => rfl
  | cons a w1 ih => simp [lastOr, ih]

lemma lastOr_mem (w : List Int) (d : Int) (h : w ≠ []) : lastOr w d ∈ w := by
  induction w generalizing d with
  | nil => exact absurd rfl h
  | cons a rest ih =>
    cases rest with
    | nil => simp [lastOr]
    | cons b t =>
      simp only [lastOr]
      exact List.mem_cons_of_mem _ (ih a (by simp))

lemma lastOr_le_of_pairwise (w : List Int) (d : Int)
    (hw : List.Pairwise (fun a b => b ≤ a) w) :
    ∀ x ∈ w, lastOr w d ≤ x := by
  induction w generalizing d with
  | nil => intro x hx; cases hx
  | cons a rest ih =>
    rcases List.pairwise_cons.mp hw with ⟨h1, h2⟩
    intro x hx
    cases rest with
    | nil =>
      have hxa : x = a := by simpa using hx
      subst hxa
      simp [lastOr]
    | cons b t =>
      simp only [lastOr]
      have hm : lastOr (b :: t) a ∈ b :: t := lastOr_mem (b :: t) a (by simp)
      rcases List.mem_cons.mp hx with h | h
      · subst h
        exact h1 _ hm
      · exact ih a h2 x h

lemma writeItems_ceiling (cfg : Config) (items : List Item) (s : State) :
    (writeItems cfg items s).ceiling = s.ceiling := by
  induction items generalizing s with
  | nil => rfl
  | cons repo rest ih =>
    simp only [writeItems]
    split
    · rfl
    · rw [ih]

lemma innerPages_ceiling (cfg : Config) (oracle : Nat → Resp)
    (pages : List Nat) (s : State) :
    (innerPages cfg oracle pages s).ceiling = s.ceiling := by
  induction pages generalizing s with
  | nil => rfl
  | cons page rest ih =>
    simp only [innerPages]
    split
    · rfl
    · split
      · rw [ih]; rfl
      · split
        · rfl
        · split
          · rfl
          · split
            · rw [writeItems_ceiling]; rfl
            · rw [ih, writeItems_ceiling]; rfl

lemma passState_ceiling (cfg : Config) (oracle : Nat → Resp) (s : State) :
    (passState cfg oracle s).ceiling = s.ceiling := by
  unfold passState
  rw [innerPages_ceiling]

lemma outerIter_ceiling_le (cfg : Config) (oracle : Nat → Resp) (s : State) :
    (outerIter cfg oracle s).ceiling ≤ s.ceiling - 1 := by
  unfold outerIter
  have hc := passState_ceiling cfg oracle s
  split
  · show (passState cfg oracle s).ceiling - 1 ≤ s.ceiling - 1
    omega
  · rename_i hlt
    show (passState cfg oracle s).lastStars ≤ s.ceiling - 1
    omega

lemma outerIter_saved (cfg : Config) (oracle : Nat → Resp) (s : State) :
    (outerIter cfg oracle s).saved = (passState cfg oracle s).saved := by
  unfold outerIter
  split <;> rfl

lemma outerIter_rows (cfg : Config) (oracle : Nat → Resp) (s : State) :
    (outerIter cfg oracle s).rows = (passState cfg oracle s).rows := by
  unfold outerIter
  split <;> rfl

lemma writeItems_balance (cfg : Config) (items : List Item) (s : State) :
    (writeItems cfg items s).saved + s.rows.length
      = (writeItems cfg items s).rows.length + s.saved := by
  induction items generalizing s with
  | nil => simp only [writeItems]; omega
  | cons repo rest ih =>
    simp only [writeItems]
    split
    · omega
    · have h := ih { s with
        rows := s.rows ++ [rowOf repo],
        saved := s.saved + 1,
        lastStars := repo.stargazers_count.getD 0,
        starsLog := s.starsLog ++ [repo.stargazers_count.getD 0] }
      dsimp only at h
      simp only [List.length_append, List.length_singleton] at h
      omega

lemma writeItems_saved_le (cfg : Config) (items : List Item) (s : State)
    (h : s.saved ≤ cfg.targetTotal) :
    (writeItems cfg items s).saved ≤ cfg.targetTotal := by
  induction items generalizing s with
  | nil => exact h
  | cons repo rest ih =>
    simp only [writeItems]
    split
    · exact h
    · rename_i hlt
      refine ih _ ?_
      show s.saved + 1 ≤ cfg.targetTotal
      omega

lemma logReq_saved (page : Nat) (s : State) : (logReq page s).saved = s.saved := rfl

lemma logReq_rows (page : Nat) (s : State) : (logReq page s).rows = s.rows := rfl

lemma innerPages_balance (cfg : Config) (oracle : Nat → Resp)
    (pages : List Nat) (s : State) :
    (innerPages cfg oracle pages s).saved + s.rows.length
      = (innerPages cfg oracle pages s).rows.length + s.saved := by
  induction pages generalizing s with
  | nil => simp only [innerPages]; omega
  | cons page rest ih =>
    simp only [innerPages]
    split
    · simp only [logReq_saved, logReq_rows]; omega
    · rename_i status items heq
      split
      · have h := ih (logReq page s)
        rw [logReq_saved, logReq_rows] at h
        omega
      · split
        · simp only [logReq_saved, logReq_rows]; omega
        · split
          · simp only [logReq_saved, logReq_rows]; omega
          · split
            · have hb := writeItems_balance cfg items (logReq page s)
              rw [logReq_saved, logReq_rows] at hb
              omega
            · have hb := writeItems_balance cfg items (logReq page s)
              rw [logReq_saved, logReq_rows] at hb
              have h := ih (writeItems cfg items (logReq page s))
              omega

lemma innerPages_saved_le (cfg : Config) (oracle : Nat → Resp)
    (pages : List Nat) (s : State) (h : s.saved ≤ cfg.targetTotal) :
    (innerPages cfg oracle pages s).saved ≤ cfg.targetTotal := by
  induction pages generalizing s with
  | nil => simpa only [innerPages]
  | cons page rest ih =>
    simp only [innerPages]
    split
    · simpa only [logReq_saved]
    · rename_i status items heq
      split
      · exact ih (logReq page s) (by rwa [logReq_saved])
      · split
        · simpa only [logReq_saved]
        · split
          · simpa only [logReq_saved]
          · split
            · exact writeItems_saved_le cfg items _ (by rwa [logReq_saved])
            · exact ih _ (writeItems_saved_le cfg items _ (by rwa [logReq_saved]))

lemma passState_balance (cfg : Config) (oracle : Nat → Resp) (s : State) :
    (passState cfg oracle s).saved + s.rows.length
      = (passState cfg oracle s).rows.length + s.saved := by
  have h := innerPages_balance cfg oracle (List.range' 1 cfg.pagesPerQuery)
    { s with lastStars := s.ceiling }
  dsimp only at h
  exact h

lemma passState_saved_le (cfg : Config) (oracle : Nat → Resp) (s : State)
    (h : s.saved ≤ cfg.targetTotal) :
    (passState cfg oracle s).saved ≤ cfg.targetTotal := by
  exact innerPages_saved_le cfg oracle _ { s with lastStars := s.ceiling } h

lemma outerIter_balance (cfg : Config) (oracle : Nat → Resp) (s : State) :
    (outerIter cfg oracle s).saved + s.rows.length
      = (outerIter cfg oracle s).rows.length + s.saved := by
  rw [outerIter_saved, outerIter_rows]
  exact passState_balance cfg oracle s

lemma outerIter_saved_le (cfg : Config) (oracle : Nat → Resp) (s : State)
    (h : s.saved ≤ cfg.targetTotal) :
    (outerIter cfg oracle s).saved ≤ cfg.targetTotal := by
  rw [outerIter_saved]
  exact passState_saved_le cfg oracle s h

lemma run_balance (cfg : Config) (oracle : Nat → Resp) :
    ∀ fuel s r, run cfg oracle fuel s = some r →
      r.saved + s.rows.length = r.rows.length + s.saved := by
  intro fuel
  induction fuel with
  | zero =>
    intro s r h
    rw [run.eq_def] at h
    split at h
    · injection h with h2; subst h2; omega
    · exact Option.noConfusion h
  | succ f ih =>
    intro s r h
    rw [run.eq_def] at h
    split at h
    · injection h with h2; subst h2; omega
    · dsimp only at h
      split at h
      · injection h with h2; subst h2
        have hb := outerIter_balance cfg oracle s
        omega
      · have h1 := ih (outerIter cfg oracle s) r h
        have hb := outerIter_balance cfg oracle s
        omega

lemma run_saved_le (cfg : Config) (oracle : Nat → Resp) :
    ∀ fuel s r, s.saved ≤ cfg.targetTotal → run cfg oracle fuel s = some r →
      r.saved ≤ cfg.targetTotal := by
  intro fuel
  induction fuel with
  | zero =>
    intro s r hs h
    rw [run.eq_def] at h
    split at h
    · injection h with h2; subst h2; exact hs
    · exact Option.noConfusion h
  | succ f ih =>
    intro s r hs h
    rw [run.eq_def] at h
    split at h
    · injection h with h2; subst h2; exact hs
    · dsimp only at h
      split at h
      · injection h with h2; subst h2
        exact outerIter_saved_le cfg oracle s hs
      · exact ih (outerIter cfg oracle s) r (outerIter_saved_le cfg oracle s hs) h

lemma run_terminates (cfg : Config) (oracle : Nat → Resp) :
    ∀ fuel s, s.ceiling.toNat ≤ fuel → 1 ≤ fuel →
      (run cfg oracle fuel s).isSome = true := by
  intro fuel
  induction fuel with
  | zero => intro s h1 h2; omega
  | succ f ih =>
    intro s h1 h2
    rw [run.eq_def]
    split
    · rfl
    · dsimp only
      split
      · rfl
      · rename_i hguard hpos
        have hle := outerIter_ceiling_le cfg oracle s
        refine ih (outerIter cfg oracle s) ?_ ?_ <;> omega

/-- Small configuration used by concrete witnesses: target 10 records,
2 pages per window, initial ceiling 9. -/
def cfgSmall : Config :=
  { targetTotal := 10, resultsPerPage := 100, pagesPerQuery := 2,
    initialMaxStars := 9 }

/-- Oracle whose every request succeeds with an empty item list. -/
def oracleEmpty : Nat → Resp := fun _ => Resp.http 200 []

/-- Sample item with 5 stars and no license. -/
def itemA : Item :=
  { name := some "alpha", full_name := some "go/alpha",
    html_url := some "https://example.test/alpha",
    description := some (some "first sample"),
    stargazers_count := some 5, forks_count := some 1,
    open_issues_count := some 0, created_at := some "2020-01-01",
    updated_at := some "2021-01-01", license := Option.none }

/-- Sample item with 3 stars. -/
def itemB : Item :=
  { itemA with
    name := some "beta",
    full_name := some "go/beta",
    stargazers_count := some 3 }

/-- Oracle whose first request returns two items (5 and then 3 stars) and
whose later requests return empty pages. -/
def oracleTwo : Nat → Resp :=
  fun n => if n = 0 then Resp.http 200 [itemA, itemB] else Resp.http 200 []

/-- C2: across outer-loop iterations the window ceiling strictly decreases
by at least 1 on every completed outer iteration (hence it is monotonically
non-increasing), and for every run the outer loop terminates after at most
(initial ceiling) iterations: a fuel equal to the current ceiling — in
particular, `initialMaxStars` for the whole collector — always yields a
completed run. -/
theorem window_monotone_and_terminates (cfg : Config) (oracle : Nat → Resp)
    (s : State) (h : 1 ≤ s.ceiling) (h2 : 1 ≤ cfg.initialMaxStars) :
    (outerIter cfg oracle s).ceiling ≤ s.ceiling - 1
    ∧ (run cfg oracle s.ceiling.toNat s).isSome = true
    ∧ (fetch_repositories cfg oracle cfg.initialMaxStars.toNat).isSome = true := by
  refine ⟨outerIter_ceiling_le cfg oracle s, ?_, ?_⟩
  · exact run_terminates cfg oracle s.ceiling.toNat s (le_refl _) (by omega)
  · show (run cfg oracle cfg.initialMaxStars.toNat (initState cfg)).isSome = true
    exact run_terminates cfg oracle _ (initState cfg) (le_refl _) (by omega)

theorem window_monotone_and_terminates_witness :
    (outerIter cfgSmall oracleEmpty (initState cfgSmall)).ceiling
      ≤ (initState cfgSmall).ceiling - 1
    ∧ (run cfgSmall oracleEmpty (initState cfgSmall).ceiling.toNat
        (initState cfgSmall)).isSome = true
    ∧ (fetch_repositories cfgSmall oracleEmpty
        cfgSmall.initialMaxStars.toNat).isSome = true :=
  window_monotone_and_terminates cfgSmall oracleEmpty (initState cfgSmall)
    (by decide) (by decide)

/-- C3: for every run and every sequence of API responses, the number of
record rows written to the output file never exceeds the configured target
total — at the granularity of a single batch write, a single inner paging
pass, and a completed collector run. -/
theorem written_rows_le_target (cfg : Config) (oracle : Nat → Resp)
    (items : List Item) (pages : List Nat) (s : State) (fuel : Nat) (r : State)
    (hs : s.rows.length = s.saved) (hs2 : s.saved ≤ cfg.targetTotal)
    (h : fetch_repositories cfg oracle fuel = some r) :
    (writeItems cfg items s).rows.length ≤ cfg.targetTotal
    ∧ (innerPages cfg oracle pages s).rows.length ≤ cfg.targetTotal
    ∧ r.rows.length ≤ cfg.targetTotal := by
  refine ⟨?_, ?_, ?_⟩
  · have hb := writeItems_balance cfg items s
    have hl := writeItems_saved_le cfg items s hs2
    omega
  · have hb := innerPages_balance cfg oracle pages s
    have hl := innerPages_saved_le cfg oracle pages s hs2
    omega
  · have hb := run_balance cfg oracle fuel (initState cfg) r h
    have hl := run_saved_le cfg oracle fuel (initState cfg) r (Nat.zero_le _) h
    have hinit : (initState cfg).rows.length = (initState cfg).saved := rfl
    omega

theorem written_rows_le_target_witness :
    (writeItems cfgSmall [itemA] (initState cfgSmall)).rows.length
      ≤ cfgSmall.targetTotal
    ∧ (innerPages cfgSmall oracleTwo (List.range' 1 2)
        (initState cfgSmall)).rows.length ≤ cfgSmall.targetTotal
    ∧ ((fetch_repositories cfgSmall oracleTwo 9).getD
        (initState cfgSmall)).rows.length ≤ cfgSmall.targetTotal :=
  written_rows_le_target cfgSmall oracleTwo [itemA] (List.range' 1 2)
    (initState cfgSmall) 9 _ rfl (by decide) rfl

/-- C10: each row write is paired with exactly one increment of the saved
counter — at the item-batch level and at the outer-iteration level the
change of `saved` equals the number of rows appended — so at the end of a
completed run the counter reported by the completion message equals the
number of data rows, and the output file holds exactly that plus the one
header row. -/
theorem saved_counter_matches_rows (cfg : Config) (oracle : Nat → Resp)
    (items : List Item) (t s : State) (fuel : Nat) (r : State)
    (h : fetch_repositories cfg oracle fuel = some r) :
    (writeItems cfg items t).saved + t.rows.length
      = (writeItems cfg items t).rows.length + t.saved
    ∧ (outerIter cfg oracle s).saved + s.rows.length
      = (outerIter cfg oracle s).rows.length + s.saved
    ∧ r.saved = r.rows.length
    ∧ (fileOf r).length = r.saved + 1 := by
  refine ⟨writeItems_balance cfg items t, outerIter_balance cfg oracle s, ?_⟩
  have hb := run_balance cfg oracle fuel (initState cfg) r h
  have hinit : (initState cfg).rows.length = (initState cfg).saved := rfl
  have hr : r.saved = r.rows.length := by
    have h0 : (initState cfg).rows.length = 0 := rfl
    have h1 : (initState cfg).saved = 0 := rfl
    omega
  refine ⟨hr, ?_⟩
  show (fileOf r).length = r.saved + 1
  unfold fileOf
  rw [List.length_cons, hr]

theorem saved_counter_matches_rows_witness :
    (writeItems cfgSmall [itemA] (initState cfgSmall)).saved
        + (initState cfgSmall).rows.length
      = (writeItems cfgSmall [itemA] (initState cfgSmall)).rows.length
        + (initState cfgSmall).saved
    ∧ (outerIter cfgSmall oracleTwo (initState cfgSmall)).saved
        + (initState cfgSmall).rows.length
      = (outerIter cfgSmall oracleTwo (initState cfgSmall)).rows.length
        + (initState cfgSmall).saved
    ∧ ((fetch_repositories cfgSmall oracleTwo 9).getD
        (initState cfgSmall)).saved
      = ((fetch_repositories cfgSmall oracleTwo 9).getD
          (initState cfgSmall)).rows.length
    ∧ (fileOf ((fetch_repositories cfgSmall oracleTwo 9).getD
        (initState cfgSmall))).length
      = ((fetch_repositories cfgSmall oracleTwo 9).getD
          (initState cfgSmall)).saved + 1 :=
  saved_counter_matches_rows cfgSmall oracleTwo [itemA] (initState cfgSmall)
    (initState cfgSmall) 9 _ rfl

/-- Abort condition for one page request: a request-level exception, or a
completed exchange that is neither the rate-limit status nor a success, or
a success carrying no items.  Each of these makes the inner loop `break`
after the request without touching the output. -/
def AbortsNow (oracle : Nat → Resp) (s : State) : Prop :=
  oracle s.reqs = Resp.exn
  ∨ ∃ st its, oracle s.reqs = Resp.http st its ∧ st ≠ 403 ∧ (st ≠ 200 ∨ its = [])

lemma innerPages_abort (cfg : Config) (oracle : Nat → Resp)
    (page : Nat) (rest : List Nat) (s : State) (h : AbortsNow oracle s) :
    innerPages cfg oracle (page :: rest) s = logReq page s := by
  rcases h with h | ⟨st, its, h, h403, hcase⟩
  · simp only [innerPages, h]
  · simp only [innerPages, h]
    rw [if_neg h403]
    rcases hcase with h200 | hits
    · rw [if_pos h200]
    · subst hits
      by_cases h200 : st = 200
      · rw [if_neg (not_not_intro h200)]
        simp
      · rw [if_pos h200]

lemma outerIter_of_abort (cfg : Config) (oracle : Nat → Resp) (s : State)
    (h : AbortsNow oracle s) (hP : 1 ≤ cfg.pagesPerQuery) :
    (outerIter cfg oracle s).ceiling = s.ceiling - 1
    ∧ (outerIter cfg oracle s).rows = s.rows
    ∧ (outerIter cfg oracle s).saved = s.saved := by
  obtain ⟨k, hk⟩ : ∃ k, cfg.pagesPerQuery = k + 1 :=
    ⟨cfg.pagesPerQuery - 1, by omega⟩
  have hM : passState cfg oracle s
      = logReq 1 { s with lastStars := s.ceiling } := by
    unfold passState
    rw [hk]
    exact innerPages_abort cfg oracle 1 (List.range' 2 k) _ h
  have h1 : (passState cfg oracle s).ceiling = s.ceiling :=
    passState_ceiling cfg oracle s
  have h2 : (passState cfg oracle s).lastStars = s.ceiling := by rw [hM]; rfl
  refine ⟨?_, ?_, ?_⟩
  · unfold outerIter
    rw [if_pos (by rw [h1, h2])]
    show (passState cfg oracle s).ceiling - 1 = s.ceiling - 1
    rw [h1]
  · rw [outerIter_rows, hM]; rfl
  · rw [outerIter_saved, hM]; rfl

/-- C5: a successful response with zero items stops the inner paging loop
immediately — the state after the whole inner loop is the pre-request
state with just the request recorded, so no row is written and no later
page is requested — and the outer loop then applies the saturation rule,
decrementing the ceiling by exactly 1 (nothing in the pass lowered
`last_star_count`). -/
theorem empty_page_stops_inner_loop (cfg : Config) (oracle : Nat → Resp)
    (s : State) (page : Nat) (rest : List Nat)
    (h : oracle s.reqs = Resp.http 200 []) (hP : 1 ≤ cfg.pagesPerQuery) :
    innerPages cfg oracle (page :: rest) s = logReq page s
    ∧ (innerPages cfg oracle (page :: rest) s).rows = s.rows
    ∧ (innerPages cfg oracle (page :: rest) s).saved = s.saved
    ∧ (outerIter cfg oracle s).ceiling = s.ceiling - 1 := by
  have habort : AbortsNow oracle s :=
    Or.inr ⟨200, [], h, by decide, Or.inr rfl⟩
  have hinner := innerPages_abort cfg oracle page rest s habort
  have houter := outerIter_of_abort cfg oracle s habort hP
  exact ⟨hinner, by rw [hinner]; rfl, by rw [hinner]; rfl, houter.1⟩

theorem empty_page_stops_inner_loop_witness :
    innerPages cfgSmall oracleEmpty (1 :: [2]) (initState cfgSmall)
      = logReq 1 (initState cfgSmall)
    ∧ (innerPages cfgSmall oracleEmpty (1 :: [2]) (initState cfgSmall)).rows
      = (initState cfgSmall).rows
    ∧ (innerPages cfgSmall oracleEmpty (1 :: [2]) (initState cfgSmall)).saved
      = (initState cfgSmall).saved
    ∧ (outerIter cfgSmall oracleEmpty (initState cfgSmall)).ceiling
      = (initState cfgSmall).ceiling - 1 :=
  empty_page_stops_inner_loop cfgSmall oracleEmpty (initState cfgSmall)
    1 [2] rfl (by decide)

/-- Oracle whose every request fails with an HTTP 500 error. -/
def oracle500 : Nat → Resp := fun _ => Resp.http 500 []

/-- C6: any non-success status other than 403, and any request-level
exception (including a response-parsing failure), aborts the inner paging
loop immediately — the result of the whole inner loop is the pre-request
state with just the request recorded, and no exception escapes the
collector (the embedding of the guarded block is a total function) — and
the outer loop then re-evaluates the window, leaving the written rows
unchanged and moving the ceiling down by 1. -/
theorem error_aborts_inner_loop (cfg : Config) (oracle : Nat → Resp)
    (s : State) (page : Nat) (rest : List Nat)
    (h : oracle s.reqs = Resp.exn
        ∨ ∃ st its, oracle s.reqs = Resp.http st its ∧ st ≠ 403 ∧ st ≠ 200)
    (hP : 1 ≤ cfg.pagesPerQuery) :
    innerPages cfg oracle (page :: rest) s = logReq page s
    ∧ (innerPages cfg oracle (page :: rest) s).rows = s.rows
    ∧ (innerPages cfg oracle (page :: rest) s).saved = s.saved
    ∧ (outerIter cfg oracle s).ceiling = s.ceiling - 1
    ∧ (outerIter cfg oracle s).rows = s.rows := by
  have habort : AbortsNow oracle s := by
    rcases h with h | ⟨st, its, h1, h2, h3⟩
    · exact Or.inl h
    · exact Or.inr ⟨st, its, h1, h2, Or.inl h3⟩
  have hinner := innerPages_abort cfg oracle page rest s habort
  have houter := outerIter_of_abort cfg oracle s habort hP
  exact ⟨hinner, by rw [hinner]; rfl, by rw [hinner]; rfl, houter.1, houter.2.1⟩

theorem error_aborts_inner_loop_witness :
    innerPages cfgSmall oracle500 (1 :: [2]) (initState cfgSmall)
      = logReq 1 (initState cfgSmall)
    ∧ (innerPages cfgSmall oracle500 (1 :: [2]) (initState cfgSmall)).rows
      = (initState cfgSmall).rows
    ∧ (innerPages cfgSmall oracle500 (1 :: [2]) (initState cfgSmall)).saved
      = (initState cfgSmall).saved
    ∧ (outerIter cfgSmall oracle500 (initState cfgSmall)).ceiling
      = (initState cfgSmall).ceiling - 1
    ∧ (outerIter cfgSmall oracle500 (initState cfgSmall)).rows
      = (initState cfgSmall).rows :=
  error_aborts_inner_loop cfgSmall oracle500 (initState cfgSmall) 1 [2]
    (Or.inr ⟨500, [], rfl, by decide, by decide⟩) (by decide)

/-- C7: every written record row has exactly ten cells; the header row is
the fixed ten-name list in source order; the star cell sits at the
position of the `stars` header and carries the item's star count (default
0); and the license cell — at the position of the `license_name` header —
is the placeholder `N/A` whenever the item has no license. -/
theorem row_has_ten_fields_and_license_default (repo : Item)
    (hl : repo.license = Option.none) :
    (rowOf repo).length = 10
    ∧ csv_headers.length = 10
    ∧ csv_headers = ["name", "full_name", "url", "description", "stars",
        "forks", "open_issues", "created_at", "updated_at", "license_name"]
    ∧ (rowOf repo).getD 4 Cell.none = Cell.int (repo.stargazers_count.getD 0)
    ∧ (rowOf repo).getD 9 Cell.none = Cell.str "N/A" := by
  refine ⟨rfl, rfl, rfl, rfl, ?_⟩
  show licenseCell repo = Cell.str "N/A"
  unfold licenseCell
  rw [hl]

theorem row_has_ten_fields_and_license_default_witness :
    (rowOf itemA).length = 10
    ∧ csv_headers.length = 10
    ∧ csv_headers = ["name", "full_name", "url", "description", "stars",
        "forks", "open_issues", "created_at", "updated_at", "license_name"]
    ∧ (rowOf itemA).getD 4 Cell.none = Cell.int (itemA.stargazers_count.getD 0)
    ∧ (rowOf itemA).getD 9 Cell.none = Cell.str "N/A" :=
  row_has_ten_fields_and_license_default itemA rfl

/-- C8: the description — the record's free-text field — is written as the
source string with every newline replaced by a space, so the written cell
contains no newline character. -/
theorem description_newlines_replaced (repo : Item) :
    (rowOf repo).getD 3 Cell.none = Cell.str (descField repo)
    ∧ ((descField repo).data.all fun c => !(c == '\n')) = true := by
  refine ⟨rfl, ?_⟩
  rw [List.all_eq_true]
  intro c hc
  have hc2 : c ∈ (descriptionStr repo.description).data.map
      fun a => if a = '\n' then ' ' else a := hc
  rcases List.mem_map.mp hc2 with ⟨a, _, heq⟩
  by_cases ha : a = '\n'
  · rw [if_pos ha] at heq
    subst heq
    decide
  · rw [if_neg ha] at heq
    subst heq
    simpa using ha

/-- Sample item whose `stargazers_count` key is absent. -/
def itemNoStars : Item := { itemA with stargazers_count := Option.none }

/-- Oracle whose first request returns the single star-less item and whose
later requests return empty pages. -/
def oracleNoStars : Nat → Resp :=
  fun n => if n = 0 then Resp.http 200 [itemNoStars] else Resp.http 200 []

/-- C9: writing an item whose star-count key is absent sets
`last_star_count` to the default 0; if the last item written during a pass
did that, the window-advance rule sets the ceiling to 0 and the outer loop
stops right after that iteration, regardless of remaining fuel — one
star-less final item ends the entire collection run. -/
theorem missing_stars_ends_run (cfg : Config) (oracle : Nat → Resp)
    (s : State) (fuel : Nat) (repo : Item) (t : State)
    (h0 : 1 ≤ s.ceiling) (h1 : (passState cfg oracle s).lastStars = 0)
    (h2 : s.saved < cfg.targetTotal) (h3 : t.saved < cfg.targetTotal)
    (h4 : repo.stargazers_count = Option.none) :
    (writeItems cfg [repo] t).lastStars = 0
    ∧ (outerIter cfg oracle s).ceiling = 0
    ∧ run cfg oracle (fuel + 1) s = some (outerIter cfg oracle s) := by
  have hps := passState_ceiling cfg oracle s
  have hceil : (outerIter cfg oracle s).ceiling = 0 := by
    unfold outerIter
    rw [if_neg (by rw [hps, h1]; omega)]
    show (passState cfg oracle s).lastStars = 0
    exact h1
  refine ⟨?_, hceil, ?_⟩
  · simp only [writeItems]
    rw [if_neg (by omega)]
    show repo.stargazers_count.getD 0 = 0
    rw [h4]
    rfl
  · rw [run.eq_def, if_neg (by omega)]
    dsimp only
    rw [if_pos hceil.le]

theorem missing_stars_ends_run_witness :
    (writeItems cfgSmall [itemNoStars] (initState cfgSmall)).lastStars = 0
    ∧ (outerIter cfgSmall oracleNoStars (initState cfgSmall)).ceiling = 0
    ∧ run cfgSmall oracleNoStars (3 + 1) (initState cfgSmall)
      = some (outerIter cfgSmall oracleNoStars (initState cfgSmall)) :=
  missing_stars_ends_run cfgSmall oracleNoStars (initState cfgSmall) 3
    itemNoStars (initState cfgSmall) (by decide) rfl (by decide) (by decide) rfl

lemma writeItems_starsLog (cfg : Config) (items : List Item) (s : State) :
    ∃ w, (writeItems cfg items s).starsLog = s.starsLog ++ w
      ∧ (writeItems cfg items s).lastStars = lastOr w s.lastStars := by
  induction items generalizing s with
  | nil => exact ⟨[], by simp [writeItems, lastOr]⟩
  | cons repo rest ih =>
    simp only [writeItems]
    split
    · exact ⟨[], by simp [lastOr]⟩
    · obtain ⟨w, hw1, hw2⟩ := ih { s with
        rows := s.rows ++ [rowOf repo],
        saved := s.saved + 1,
        lastStars := repo.stargazers_count.getD 0,
        starsLog := s.starsLog ++ [repo.stargazers_count.getD 0] }
      refine ⟨repo.stargazers_count.getD 0 :: w, ?_, ?_⟩
      · rw [hw1]
        dsimp only
        rw [List.append_assoc]
        rfl
      · rw [hw2]
        rfl

lemma innerPages_starsLog (cfg : Config) (oracle : Nat → Resp)
    (pages : List Nat) (s : State) :
    ∃ w, (innerPages cfg oracle pages s).starsLog = s.starsLog ++ w
      ∧ (innerPages cfg oracle pages s).lastStars = lastOr w s.lastStars := by
  induction pages generalizing s with
  | nil => exact ⟨[], by simp [innerPages, lastOr]⟩
  | cons page rest ih =>
    simp only [innerPages]
    split
    · exact ⟨[], by simp [lastOr, logReq]⟩
    · rename_i status items heq
      split
      · obtain ⟨w, h1, h2⟩ := ih (logReq page s)
        exact ⟨w, h1, h2⟩
      · split
        · exact ⟨[], by simp [lastOr, logReq]⟩
        · split
          · exact ⟨[], by simp [lastOr, logReq]⟩
          · split
            · obtain ⟨w, h1, h2⟩ := writeItems_starsLog cfg items (logReq page s)
              exact ⟨w, h1, h2⟩
            · obtain ⟨w1, h11, h12⟩ := writeItems_starsLog cfg items (logReq page s)
              obtain ⟨w2, h21, h22⟩ := ih (writeItems cfg items (logReq page s))
              refine ⟨w1 ++ w2, ?_, ?_⟩
              · rw [h21, h11]
                rw [List.append_assoc]
                rfl
              · rw [lastOr_append, h22, h12]
                rfl

lemma passWritten_spec (cfg : Config) (oracle : Nat → Resp) (s : State) :
    (passState cfg oracle s).starsLog = s.starsLog ++ passWritten cfg oracle s
    ∧ (passState cfg oracle s).lastStars
      = lastOr (passWritten cfg oracle s) s.ceiling := by
  obtain ⟨w, h1, h2⟩ := innerPages_starsLog cfg oracle
    (List.range' 1 cfg.pagesPerQuery) { s with lastStars := s.ceiling }
  have hstart : ({ s with lastStars := s.ceiling } : State).starsLog
      = s.starsLog := rfl
  have hw : passWritten cfg oracle s = w := by
    unfold passWritten passState
    rw [h1, hstart]
    exact List.drop_left _ _
  constructor
  · rw [hw]
    exact h1
  · rw [hw]
    exact h2

/-- C4: at the end of an outer-loop pass whose written star values arrive
in the non-increasing order the query requests, if no written value lies
strictly below the ceiling (including the empty pass), the ceiling is
decremented by exactly 1; otherwise the new ceiling is the lowest star
value observed in the pass (it is one of the written values and is a lower
bound of all of them). -/
theorem window_advance_rule (cfg : Config) (oracle : Nat → Resp) (s : State)
    (hsort : List.Pairwise (fun a b => b ≤ a) (passWritten cfg oracle s)) :
    ((∀ x ∈ passWritten cfg oracle s, s.ceiling ≤ x) →
        (outerIter cfg oracle s).ceiling = s.ceiling - 1)
    ∧ ((∃ x ∈ passWritten cfg oracle s, x < s.ceiling) →
        (outerIter cfg oracle s).ceiling ∈ passWritten cfg oracle s
        ∧ ∀ y ∈ passWritten cfg oracle s, (outerIter cfg oracle s).ceiling ≤ y) := by
  obtain ⟨hlog, hlast⟩ := passWritten_spec cfg oracle s
  have hps := passState_ceiling cfg oracle s
  constructor
  · intro hall
    have hcond : (passState cfg oracle s).ceiling
        ≤ (passState cfg oracle s).lastStars := by
      rw [hps, hlast]
      rcases eq_or_ne (passWritten cfg oracle s) [] with h | h
      · rw [h]
        exact le_refl _
      · exact hall _ (lastOr_mem _ s.ceiling h)
    unfold outerIter
    rw [if_pos hcond]
    show (passState cfg oracle s).ceiling - 1 = s.ceiling - 1
    rw [hps]
  · intro hex
    obtain ⟨x, hx, hxlt⟩ := hex
    have hne : passWritten cfg oracle s ≠ [] := by
      intro h
      rw [h] at hx
      cases hx
    have hmin : ∀ y ∈ passWritten cfg oracle s,
        lastOr (passWritten cfg oracle s) s.ceiling ≤ y :=
      lastOr_le_of_pairwise _ s.ceiling hsort
    have hlt : lastOr (passWritten cfg oracle s) s.ceiling < s.ceiling :=
      lt_of_le_of_lt (hmin x hx) hxlt
    have hcond : ¬ (passState cfg oracle s).ceiling
        ≤ (passState cfg oracle s).lastStars := by
      rw [hps, hlast]
      omega
    unfold outerIter
    rw [if_neg hcond]
    constructor
    · show (passState cfg oracle s).lastStars ∈ passWritten cfg oracle s
      rw [hlast]
      exact lastOr_mem _ s.ceiling hne
    · intro y hy
      show (passState cfg oracle s).lastStars ≤ y
      rw [hlast]
      exact hmin y hy

theorem window_advance_rule_witness :
    (outerIter cfgSmall oracleTwo (initState cfgSmall)).ceiling
      ∈ passWritten cfgSmall oracleTwo (initState cfgSmall)
    ∧ ∀ y ∈ passWritten cfgSmall oracleTwo (initState cfgSmall),
        (outerIter cfgSmall oracleTwo (initState cfgSmall)).ceiling ≤ y :=
  (window_advance_rule cfgSmall oracleTwo (initState cfgSmall) (by decide)).2
    ⟨3, by decide, by decide⟩

/-- Oracle whose first request is answered with HTTP 403 and whose later
requests succeed with an empty item list. -/
def oracleRateLimited : Nat → Resp :=
  fun n => if n = 0 then Resp.http 403 [] else Resp.http 200 []

/-- C1: evaluation of a pass at the rate-limited trace, with the source's
own configuration.  The first request (page 1, ceiling 500000) returns
HTTP 403; the pass then issues its next request for page 2 — the
`continue` statement advances the `for page` counter, so page 1 is never
retried — while no row is written and the saved count stays 0. -/
theorem rate_limit_advances_page :
    (passState defaultConfig oracleRateLimited (initState defaultConfig)).log
      = [(1, 500000), (2, 500000)]
    ∧ (passState defaultConfig oracleRateLimited (initState defaultConfig)).saved
      = 0
    ∧ (passState defaultConfig oracleRateLimited (initState defaultConfig)).rows
      = [] :=
  ⟨rfl, rfl, rfl⟩

end GithubExporter
